import Mathlib

/-!
Verification of the Inside-Airbnb NYC rental analysis pipeline.

The repository is a small pandas pipeline: a loader that concatenates
monthly CSV files, a preprocessor (price cleaning, month numbering,
outlier filtering), an analyzer (grouped statistics, borough comparison,
seasonal range) and a visualizer.  We shallowly embed the tabular data
model and the operations of `data_loading.py`, `preprocessing.py`,
`analysis.py` and the one relevant function of `visualization.py`.

Modelling conventions:
- A cell value is a string, a number (pandas float64, modelled as an
  exact rational since every claim only exercises exact decimal values),
  or the missing-value marker NaN.
- A row is an association list from column names to values; a table
  (DataFrame) is a list of rows.  Reading an absent column yields NaN;
  the source only ever reads columns that are present (pandas would
  raise KeyError otherwise), so this default is never load-bearing.
- Fallible pandas calls are embedded in `Except String`.
-/

set_option maxRecDepth 4000

attribute [local semireducible] Rat.add Rat.sub Rat.mul Rat.inv

/-- Values held in a table cell: a string, a number, or the
missing-value marker (pandas NaN). -/
inductive Value where
  | str (s : String)
  | num (q : ℚ)
  | nan
  deriving DecidableEq

/-- A row of a table: an association list from column names to values. -/
abbrev Row := List (String × Value)

/-- A table, as in `pd.DataFrame`: a list of rows. -/
abbrev DataFrame := List Row

/-- First value stored under column `c` in row `r`, if any. -/
def Row.find? : Row → String → Option Value
  | [], _ => none
  | p :: ps, c => if p.1 = c then some p.2 else Row.find? ps c

/-- Value of column `c` in row `r`; NaN when the column is absent
(the source never reads an absent column). -/
def Row.get (r : Row) (c : String) : Value :=
  (Row.find? r c).getD .nan

/-- Column assignment `row[c] = v`: overwrite the first entry for `c`,
or append the new column at the end, as pandas does. -/
def Row.set : Row → String → Value → Row
  | [], c, v => [(c, v)]
  | p :: ps, c, v => if p.1 = c then (c, v) :: ps else p :: Row.set ps c v

/-- Numeric content of a value, if it is a number. -/
def Value.asNum : Value → Option ℚ
  | .num q => some q
  | _ => none

/-- Whether a value is pure numeric data (a number or the missing
marker), i.e. a cell of an already-cleaned price column. -/
def isNumOrNan : Value → Bool
  | .str _ => false
  | _ => true

/-- Numeric value of a digit character. -/
def digitVal (c : Char) : ℕ := c.toNat - 48

/-- Natural number denoted by a digit string. -/
def digitsVal (cs : List Char) : ℕ :=
  cs.foldl (fun a c => a * 10 + digitVal c) 0

/-- Parse an unsigned decimal numeral `digits [. digits]` (at least one
digit overall), the forms `pd.to_numeric` accepts in this data set.
Exponent and infinity forms never occur in the repository's data and
are not modelled; they would parse to a number as well. -/
def parseUnsigned (cs : List Char) : Option ℚ :=
  let ip := cs.takeWhile Char.isDigit
  let rest := cs.dropWhile Char.isDigit
  match rest with
  | [] => if ip = [] then none else some (digitsVal ip)
  | c :: fp =>
    if c = '.' ∧ fp.all Char.isDigit ∧ (ip ≠ [] ∨ fp ≠ []) then
      some ((digitsVal ip : ℚ) + (digitsVal fp : ℚ) / (10 : ℚ) ^ fp.length)
    else none

/-- Parse an optionally signed decimal numeral. -/
def parseSigned (cs : List Char) : Option ℚ :=
  match cs with
  | '-' :: rest => (parseUnsigned rest).map Neg.neg
  | '+' :: rest => parseUnsigned rest
  | _ => parseUnsigned cs

/-- Whitespace-trim of a character list (numeric parsing in pandas
tolerates surrounding whitespace). -/
def trimChars (cs : List Char) : List Char :=
  ((cs.dropWhile Char.isWhitespace).reverse.dropWhile Char.isWhitespace).reverse

/-- Embeds `pd.to_numeric(s, errors='coerce')` on one cell: parse the
(whitespace-trimmed) string as a number, and produce the missing-value
marker instead of raising when it does not parse.  The string "nan"
(produced by `astype(str)` on a NaN) also coerces to NaN, which the
fall-through none-branch delivers. -/
def toNumericCoerce (s : String) : Value :=
  match parseSigned (trimChars s.data) with
  | some q => .num q
  | none => .nan

/-- Embeds `s.replace('$', '', regex=False).replace(',', '', regex=False)`:
replacing every occurrence of a one-character pattern by the empty
string is exactly the removal of that character. -/
def stripCurrency (s : String) : String :=
  String.mk (s.data.filter (fun c => c ≠ '$' ∧ c ≠ ','))

/-- One cell of the price-cleaning transform of `clean_price_column`:
`astype(str)`, strip `$` and `,`, then `to_numeric(errors='coerce')`.
On a cell that is already a float, `astype(str)` renders the float and
`to_numeric` parses it back (Python float repr and float parsing are
mutually inverse, and the repr never contains `$` or a comma), so the
composite is the identity; likewise NaN renders as "nan" which coerces
back to NaN.  Those two round trips are collapsed here. -/
def cleanValue : Value → Value
  | .str s => toNumericCoerce (stripCurrency s)
  | .num q => .num q
  | .nan => .nan

/-- Embeds `clean_price_column` of `preprocessing.py` (minus the
`df.copy()` aliasing, treated separately by the heap model below):
clean every cell of the price column. -/
def clean_price_column (df : DataFrame) (pcol : String) : DataFrame :=
  df.map (fun r => Row.set r pcol (cleanValue (Row.get r pcol)))

/-- The `MONTH_MAPPING` dictionary of `preprocessing.py`. -/
def MONTH_MAPPING : List (String × ℕ) :=
  [("January", 1), ("February", 2), ("March", 3), ("April", 4),
   ("May", 5), ("June", 6), ("July", 7), ("August", 8),
   ("September", 9), ("October", 10), ("November", 11), ("December", 12)]

/-- One cell of `Series.map(MONTH_MAPPING)`: month names found in the
dictionary map to their number, everything else (unrecognized strings,
NaN, non-strings) to NaN. -/
def mapMonth (v : Value) : Value :=
  match v with
  | .str s =>
    match MONTH_MAPPING.lookup s with
    | some n => .num n
    | none => .nan
  | _ => .nan

/-- Embeds `add_month_number` of `preprocessing.py` (minus the
`df.copy()` aliasing): add the numeric-month column. -/
def add_month_number (df : DataFrame) (mcol mncol : String) : DataFrame :=
  df.map (fun r => Row.set r mncol (mapMonth (Row.get r mcol)))

/-- The boolean mask `df[price_col] < max_price`: true only for numeric
prices strictly below the threshold; NaN compares false.  A string
price never reaches this comparison in the pipeline (prices are cleaned
first; on raw strings pandas would raise), so strings yield false. -/
def vltB (v : Value) (m : ℚ) : Bool :=
  match v with
  | .num a => decide (a < m)
  | _ => false

/-- Embeds `filter_price_outliers` of `preprocessing.py`: keep the rows
whose price is strictly below the threshold.  The verbose branch only
prints counts and is omitted (console output, no data effect). -/
def filter_price_outliers (df : DataFrame) (m : ℚ) (pcol : String) : DataFrame :=
  df.filter (fun r => vltB (Row.get r pcol) m)

/-- Embeds `preprocess_data` of `preprocessing.py`: clean prices, add
month numbers, filter outliers, with the source's default column names. -/
def preprocess_data (df : DataFrame) (m : ℚ) : DataFrame :=
  filter_price_outliers
    (add_month_number (clean_price_column df "price") "month" "month_num")
    m "price"

deriving instance DecidableEq for Except

/-- Character-list suffix of a matching file name: `_<year>.csv`. -/
def listingsSuffix (year : ℕ) : List Char :=
  ("_" ++ toString year ++ ".csv").data

/-- Character-list prefix of a matching file name. -/
def listingsPre : List Char := "listings_".data

/-- Embeds the glob `listings_*_{year}.csv` of `load_monthly_listings`:
a single `*` matches any (possibly empty) character sequence, so a name
matches exactly when it carries the literal prefix and suffix and is
long enough for them not to overlap. -/
def matchesPattern (year : ℕ) (name : String) : Bool :=
  let cs := name.data
  decide (cs.take listingsPre.length = listingsPre) &&
  decide (listingsPre.length + (listingsSuffix year).length ≤ cs.length) &&
  decide (cs.drop (cs.length - (listingsSuffix year).length) = listingsSuffix year)

/-- Python string comparison `a <= b`: lexicographic by code point on
the character sequences.  (Stated through the data lists because the
iterator-based `String` order does not evaluate definitionally.) -/
def strLeB (a b : String) : Bool := !(decide (b.data < a.data))

/-- Split of a character list at every occurrence of a separator, as
Python `str.split` on a one-character separator. -/
def splitOnChar (sep : Char) : List Char → List (List Char)
  | [] => [[]]
  | c :: cs =>
    match splitOnChar sep cs with
    | [] => [[c]]
    | g :: gs => if c = sep then [] :: g :: gs else (c :: g) :: gs

/-- Embeds `f.stem.split("_")[1]` of the loader: strip the `.csv`
suffix (every matched name ends in it, so dropping four characters is
`Path.stem`) and take the token after the first underscore.  Matched
names always split into at least three parts, so the Python index
never fails; the default branch is unreachable on matched names. -/
def monthToken (name : String) : String :=
  let stem := name.data.take (name.data.length - 4)
  String.mk ((splitOnChar '_' stem).getD 1 [])

/-- A directory, for the loader: file names with their parsed CSV rows. -/
abbrev Directory := List (String × List Row)

/-- Row set of one loaded file: the file's rows with the month token of
the file name written into the `month` column (`df["month"] = month_str`). -/
def tagRows (f : String × List Row) : List Row :=
  f.2.map (fun r => Row.set r "month" (.str (monthToken f.1)))

/-- The matching files of a directory in sorted-name order, as
`sorted(data_folder.glob(...))` (Python compares path strings
lexicographically by code point, as `String` order does). -/
def matchingFilesSorted (dir : Directory) (year : ℕ) : Directory :=
  List.insertionSort (fun a b => strLeB a.1 b.1 = true)
    (dir.filter (fun f => matchesPattern year f.1))

/-- Embeds `load_monthly_listings` of `data_loading.py`: find the files
matching the year pattern, fail when there are none, otherwise tag each
file's rows with its month token and concatenate in sorted-name order
(`pd.concat(dfs, ignore_index=True)`).  The progress printing is
console-only and omitted. -/
def load_monthly_listings (dir : Directory) (year : ℕ) : Except String DataFrame :=
  let files := matchingFilesSorted dir year
  if files.isEmpty then
    .error ("FileNotFoundError: no listing files found for year " ++ toString year)
  else
    .ok (files.map tagRows).flatten

/-- Rank used to order values of distinct kinds.  pandas raises on
comparing mixed-kind group keys; no claim sorts mixed keys, so any
fixed total order between kinds serves. -/
def vrank : Value → ℕ
  | .nan => 0
  | .num _ => 1
  | .str _ => 2

/-- Ascending order on cell values: numbers by numeric order, strings
lexicographically, kinds otherwise by rank. -/
def vle (a b : Value) : Bool :=
  match a, b with
  | .num x, .num y => decide (x ≤ y)
  | .str x, .str y => strLeB x y
  | _, _ => decide (vrank a ≤ vrank b)

/-- The order `vle` as a relation, for `List.insertionSort`. -/
def vleP (a b : Value) : Prop := vle a b = true

instance : DecidableRel vleP := fun a b => instDecidableEqBool (vle a b) true

/-- Non-missing values of a column, in row order.  `df.groupby(col)`
drops rows whose key is NaN (`dropna=True` default). -/
def keyVals (df : DataFrame) (c : String) : List Value :=
  df.filterMap (fun r => match Row.get r c with | .nan => none | v => some v)

/-- The group keys of `df.groupby(c)`, ascending (`sort=True` default;
`calculate_rental_stats` additionally applies `sort_index`, a no-op on
the already-sorted keys). -/
def sortedKeys (df : DataFrame) (c : String) : List Value :=
  List.insertionSort vleP (keyVals df c).dedup

/-- The numeric prices of the group of key `k`: rows whose key equals
`k`, keeping only non-missing numeric prices, which is what `count`,
`mean`, `median` and `std` aggregate over (they all skip NaN). -/
def groupNums (df : DataFrame) (gcol pcol : String) (k : Value) : List ℚ :=
  df.filterMap (fun r => if Row.get r gcol = k then (Row.get r pcol).asNum else none)

/-- Series mean: NaN on an empty (all-missing) selection. -/
def meanQ (l : List ℚ) : Value :=
  if l.isEmpty then .nan else .num (l.sum / l.length)

/-- Series median: middle of the sorted values, averaging the two
middles at even length; NaN when empty. -/
def medianQ (l : List ℚ) : Value :=
  let s := List.insertionSort (· ≤ ·) l
  if s.isEmpty then .nan
  else if s.length % 2 = 1 then .num (s.getD (s.length / 2) 0)
  else .num ((s.getD (s.length / 2 - 1) 0 + s.getD (s.length / 2) 0) / 2)

/-- Square of the series standard deviation, i.e. the `ddof = 1` sample
variance that pandas `std` takes the square root of; NaN for fewer than
two values.  The square root of a rational is irrational in general, so
the development carries the exact square. -/
def varQ (l : List ℚ) : Value :=
  if l.length < 2 then .nan
  else
    let m := l.sum / l.length
    .num ((l.map (fun x => (x - m) ^ 2)).sum / ((l.length : ℚ) - 1))

/-- Whether the grouping column is float-typed in pandas: a numeric
CSV-derived column holding any NaN (or non-integral value) has dtype
float64, and its group keys then render with a trailing `.0` under
`str`.  Value-level cells cannot carry the dtype, so it is recomputed
from the column's contents, which is exactly what determines it. -/
def colIsFloat (df : DataFrame) (c : String) : Bool :=
  df.any (fun r =>
    match Row.get r c with
    | .nan => true
    | .num q => decide (q.den ≠ 1)
    | .str _ => false)

/-- Month names as `pandas.Timestamp.month_name()` returns them. -/
def pandasMonthNames : List String :=
  ["January", "February", "March", "April", "May", "June", "July",
   "August", "September", "October", "November", "December"]

/-- Python `str(x)` on a group key drawn from a numeric column: an
int64 key prints its integer, a float64 key prints with a fractional
part (`1.0`).  A non-integral float prints with a decimal point or
worse; any such rendering fails the `%m` parse below identically, so
the exact spelling of that unreachable branch is immaterial. -/
def pyStrOfKey (isFloat : Bool) (q : ℚ) : String :=
  if q.den = 1 then
    (if isFloat then toString q.num ++ ".0" else toString q.num)
  else toString q.num ++ "." ++ toString q.den

/-- Embeds `pd.to_datetime(s, format='%m')`: `%m` accepts one or two
digit characters denoting a month 1-12 and nothing else; anything else
raises `ValueError`. -/
def parseMonthFmt (s : String) : Except String ℕ :=
  let cs := s.data
  if cs ≠ [] ∧ cs.length ≤ 2 ∧ cs.all Char.isDigit ∧
      1 ≤ digitsVal cs ∧ digitsVal cs ≤ 12 then
    .ok (digitsVal cs)
  else
    .error ("ValueError: time data " ++ s ++ " does not match format")

/-- Embeds `pd.to_datetime(str(x), format='%m').month_name()` on one
group key. -/
def monthNameExc (isFloat : Bool) : Value → Except String String
  | .num q => (parseMonthFmt (pyStrOfKey isFloat q)).map
      (fun n => pandasMonthNames.getD (n - 1) "")
  | .str s => (parseMonthFmt s).map (fun n => pandasMonthNames.getD (n - 1) "")
  | .nan => .error "ValueError: time data nan does not match format"

/-- One row of the statistics table of `calculate_rental_stats`. -/
structure StatRow where
  key : Value
  count : ℕ
  mean : Value
  median : Value
  stdSq : Value
  month : Option String
  deriving DecidableEq

/-- The `agg(['count', 'mean', 'median', 'std'])` record of one group. -/
def statOf (df : DataFrame) (gcol pcol : String) (k : Value) : StatRow :=
  let xs := groupNums df gcol pcol k
  ⟨k, xs.length, meanQ xs, medianQ xs, varQ xs, none⟩

/-- Embeds `stats['month'] = stats.index.map(lambda x - ...)`: attach
the month name to each group row, failing at the first key whose
rendering does not parse as a month, as the pandas index map raises. -/
def attachMonths (isFloat : Bool) : List StatRow → Except String (List StatRow)
  | [] => .ok []
  | s :: rest =>
    match monthNameExc isFloat s.key with
    | .error e => .error e
    | .ok nm =>
      match attachMonths isFloat rest with
      | .error e => .error e
      | .ok rest2 => .ok ({ s with month := some nm } :: rest2)

/-- Embeds `calculate_rental_stats` of `analysis.py`: per-group count,
mean, median and std of price, groups sorted by key ascending, and the
human-readable month name attached when grouping by `month_num`. -/
def calculate_rental_stats (df : DataFrame) (gcol pcol : String) :
    Except String (List StatRow) :=
  let base := (sortedKeys df gcol).map (statOf df gcol pcol)
  if gcol = "month_num" then attachMonths (colIsFloat df gcol) base else .ok base

/-- Numeric prices of the rows matching the target borough
(`df[df[borough_col] == target][price_col]`, mean skips NaN). -/
def targetPricesOf (df : DataFrame) (bcol target pcol : String) : List ℚ :=
  df.filterMap (fun r =>
    if Row.get r bcol = .str target then (Row.get r pcol).asNum else none)

/-- Numeric prices of all other rows (`df[borough_col] != target`,
which includes rows whose borough is missing). -/
def otherPricesOf (df : DataFrame) (bcol target pcol : String) : List ℚ :=
  df.filterMap (fun r =>
    if Row.get r bcol = .str target then none else (Row.get r pcol).asNum)

/-- Float division of cell values.  On a zero denominator numpy emits
an invalid result (infinity or NaN) rather than raising; the spec
declares that case undefined behavior, no claim exercises it, and it
is collapsed to the missing marker here. -/
def vdiv : Value → Value → Value
  | .num a, .num b => if b = 0 then .nan else .num (a / b)
  | _, _ => .nan

/-- The one-row comparison table of `compare_boroughs`. -/
structure BoroughComparison where
  targetAvgPrice : Value
  otherAvgPrice : Value
  ratioVal : Value
  deriving DecidableEq

/-- Embeds `compare_boroughs` of `analysis.py`: mean price of the
target rows, mean price of all other rows, and their quotient (the
`Ratio` column). -/
def compare_boroughs (df : DataFrame) (bcol target pcol : String) : BoroughComparison :=
  let t := meanQ (targetPricesOf df bcol target pcol)
  let o := meanQ (otherPricesOf df bcol target pcol)
  ⟨t, o, vdiv t o⟩

/-- The per-group mean prices `df.groupby(g)[p].mean()`, in key order. -/
def groupMeansList (df : DataFrame) (gcol pcol : String) : List Value :=
  (sortedKeys df gcol).map (fun k => meanQ (groupNums df gcol pcol k))

/-- Series minimum, skipping missing values (`skipna=True` default);
NaN when no numeric value remains. -/
def seriesMin (vals : List Value) : Value :=
  match vals.filterMap Value.asNum with
  | [] => .nan
  | x :: xs => .num (xs.foldl min x)

/-- Series maximum, skipping missing values. -/
def seriesMax (vals : List Value) : Value :=
  match vals.filterMap Value.asNum with
  | [] => .nan
  | x :: xs => .num (xs.foldl max x)

/-- Cell-value subtraction, missing-propagating. -/
def vsub : Value → Value → Value
  | .num a, .num b => .num (a - b)
  | _, _ => .nan

/-- Multiplication by the scalar 100 (`* 100` in `pct_range`). -/
def vmul100 : Value → Value
  | .num a => .num (a * 100)
  | _ => .nan

/-- The result record of `calculate_seasonal_range`. -/
structure SeasonalRange where
  minPrice : Value
  maxPrice : Value
  priceRange : Value
  pctRange : Value
  deriving DecidableEq

/-- Embeds `calculate_seasonal_range` of `analysis.py`: minimum and
maximum per-group mean price, their difference, and the difference as a
percentage of the minimum. -/
def calculate_seasonal_range (df : DataFrame) (gcol pcol : String) : SeasonalRange :=
  let ma := groupMeansList df gcol pcol
  let mn := seriesMin ma
  let mx := seriesMax ma
  ⟨mn, mx, vsub mx mn, vmul100 (vdiv (vsub mx mn) mn)⟩

/-- Keyword parameters accepted by `pandas.Series.sort_values`. -/
def sortValuesAllowedKeywords : List String :=
  ["axis", "ascending", "inplace", "kind", "na_position", "ignore_index", "key"]

/-- A Python call `series.sort_values(<kwargs>)` on a key-to-value
series: passing any keyword outside the method signature raises
`TypeError` before anything runs; otherwise the series is sorted by
value (ascending default — the source's only call never reaches the
sort, so no other keyword semantics is needed). -/
def seriesSortValuesCall (s : List (Value × Value)) (kwargs : List String) :
    Except String (List (Value × Value)) :=
  if kwargs.all (fun k => sortValuesAllowedKeywords.contains k) then
    .ok (List.insertionSort (fun a b => vleP a.2 b.2) s)
  else
    .error "TypeError: sort_values got an unexpected keyword argument"

/-- Embeds the data computation of `plot_manhattan_neighborhood_prices`
of `visualization.py`: restrict to Manhattan rows, compute per-
neighborhood mean prices, call `sort_values` passing the keyword
`descending` (which is not in the pandas signature), truncate to
`top_n` when that is truthy, then render (the matplotlib and seaborn
calls draw and return nothing, so rendering is the trivial effect). -/
def plot_manhattan_neighborhood_prices (df : DataFrame) (bcol ncol pcol : String)
    (top_n : Option ℕ) : Except String Unit := do
  let manhattan := df.filter (fun r => decide (Row.get r bcol = .str "Manhattan"))
  let avg := (sortedKeys manhattan ncol).map
    (fun k => (k, meanQ (groupNums manhattan ncol pcol k)))
  let srt ← seriesSortValuesCall avg ["descending"]
  let _ := match top_n with
    | some n => if n = 0 then srt else srt.take n
    | none => srt
  pure ()

/-- A heap of tables, for the aliasing contract: Python names are
references into this heap, `df.copy()` is an allocation, and in-place
column assignment is a store at the existing index. -/
abbrev Heap := List DataFrame

/-- Table at reference `i` (the empty table default is never read: ops
are applied to live references). -/
def heapGet (h : Heap) (i : ℕ) : DataFrame := h.getD i []

/-- Allocate a fresh table, returning the new heap and its reference. -/
def heapAlloc (h : Heap) (d : DataFrame) : Heap × ℕ := (h ++ [d], h.length)

/-- Overwrite the table at reference `i` (in-place mutation). -/
def heapStore (h : Heap) (i : ℕ) (d : DataFrame) : Heap := h.set i d

/-- Operational `clean_price_column`: `df = df.copy()` allocates, the
two column assignments mutate only the copy. -/
def clean_price_column_op (h : Heap) (ref : ℕ) (pcol : String) : Heap × ℕ :=
  let c := heapAlloc h (heapGet h ref)
  (heapStore c.1 c.2 (clean_price_column (heapGet c.1 c.2) pcol), c.2)

/-- Operational `add_month_number`: copy, then mutate only the copy. -/
def add_month_number_op (h : Heap) (ref : ℕ) (mcol mncol : String) : Heap × ℕ :=
  let c := heapAlloc h (heapGet h ref)
  (heapStore c.1 c.2 (add_month_number (heapGet c.1 c.2) mcol mncol), c.2)

/-- Operational `filter_price_outliers`: `df[mask].copy()` reads the
source and allocates the filtered copy; the source is never written. -/
def filter_price_outliers_op (h : Heap) (ref : ℕ) (m : ℚ) (pcol : String) : Heap × ℕ :=
  heapAlloc h (filter_price_outliers (heapGet h ref) m pcol)

/-- Operational `preprocess_data`: the three steps in order, each
rebinding the local name `df` to the step's result reference. -/
def preprocess_data_op (h : Heap) (ref : ℕ) (m : ℚ) : Heap × ℕ :=
  let s1 := clean_price_column_op h ref "price"
  let s2 := add_month_number_op s1.1 s1.2 "month" "month_num"
  filter_price_outliers_op s2.1 s2.2 m "price"

/-- Whether a cleaned price exceeds (is strictly greater than) the
ceiling, the reading of "no price exceeds the ceiling"; a missing
price exceeds nothing. -/
def priceExceeds (v : Value) (m : ℚ) : Bool :=
  match v with
  | .num a => decide (m < a)
  | _ => false

/-- One listing priced exactly at the default ceiling. -/
def dfCeil : DataFrame := [[("price", Value.num 5000)]]

/-- A table with one Manhattan listing. -/
def dfManhattan : DataFrame :=
  [[("neighbourhood_group_cleansed", Value.str "Manhattan"),
    ("neighbourhood_cleansed", Value.str "Harlem"), ("price", Value.num 100)]]

/-- A directory whose single matching file already carries a `month`
column. -/
def dirMonthCol : Directory :=
  [("listings_May_2025.csv", [[("month", Value.str "stale"), ("price", Value.num 1)]])]

/-- A directory with two matching files listed out of name order plus a
non-matching file. -/
def dirTwoFiles : Directory :=
  [("listings_May_2025.csv", [[("price", Value.str "$2")], [("price", Value.str "$3")]]),
   ("readme.txt", [[("price", Value.str "$9")]]),
   ("listings_April_2025.csv", [[("price", Value.str "$1")]])]

/-- A table whose price column is already pure numeric. -/
def dfNumeric : DataFrame := [[("price", Value.num 100)], [("price", Value.nan)]]

/-- A one-table heap, for the aliasing witness. -/
def heapOne : Heap := [[[("price", Value.str "$7,000"), ("month", Value.str "May")]]]

/-- A table whose month-number column carries a missing value, making
the column float-typed. -/
def dfFloatMonth : DataFrame :=
  [[("month_num", Value.num 1), ("price", Value.num 100)],
   [("month_num", Value.nan), ("price", Value.num 50)]]

/-- The two-group table of the grouped-statistics example: group A
holds prices 10, 20, 30 and group B holds price 100. -/
def dfGroups : DataFrame :=
  [[("grp", Value.str "A"), ("price", Value.num 10)],
   [("grp", Value.str "B"), ("price", Value.num 100)],
   [("grp", Value.str "A"), ("price", Value.num 20)],
   [("grp", Value.str "A"), ("price", Value.num 30)]]

/-- A borough table with target mean 300 and other mean 100. -/
def dfBoroughs : DataFrame :=
  [[("neighbourhood_group_cleansed", Value.str "Manhattan"), ("price", Value.num 300)],
   [("neighbourhood_group_cleansed", Value.str "Queens"), ("price", Value.num 100)]]

/-- Monthly means 100, 150 and 90, the seasonal-range example. -/
def dfSeasons : DataFrame :=
  [[("month_num", Value.num 1), ("price", Value.num 100)],
   [("month_num", Value.num 2), ("price", Value.num 150)],
   [("month_num", Value.num 3), ("price", Value.num 90)]]

/-- A table with a missing price, as an unparseable price produces. -/
def dfBadPrice : DataFrame := [[("price", Value.nan), ("id", Value.num 1)]]

/-! Helper lemmas about rows, cleaning, the heap, and the orders. -/

theorem Row.get_set (r : Row) (c : String) (v : Value) :
    Row.get (Row.set r c v) c = v := by
  induction r with
  | nil => simp [Row.set, Row.get, Row.find?]
  | cons p ps ih =>
    by_cases h : p.1 = c
    · simp [Row.set, Row.get, Row.find?, h]
    · simpa [Row.set, Row.get, Row.find?, h] using ih

theorem Row.get_set_ne (r : Row) (c c2 : String) (v : Value) (h : c ≠ c2) :
    Row.get (Row.set r c v) c2 = Row.get r c2 := by
  induction r with
  | nil => simp [Row.set, Row.get, Row.find?, h]
  | cons p ps ih =>
    by_cases hp : p.1 = c
    · have hp2 : ¬ p.1 = c2 := by rw [hp]; exact h
      simp [Row.set, Row.get, Row.find?, hp, hp2, h]
    · by_cases hp2 : p.1 = c2
      · simp [Row.set, Row.get, Row.find?, hp, hp2, Ne.symm h]
      · simpa [Row.set, Row.get, Row.find?, hp, hp2] using ih

theorem Row.find?_set (r : Row) (c : String) (v : Value) :
    Row.find? (Row.set r c v) c = some v := by
  induction r with
  | nil => simp [Row.set, Row.find?]
  | cons p ps ih =>
    by_cases h : p.1 = c
    · simp [Row.set, Row.find?, h]
    · simpa [Row.set, Row.find?, h] using ih

theorem Row.set_of_find? (r : Row) (c : String) (v : Value)
    (h : Row.find? r c = some v) : Row.set r c v = r := by
  induction r with
  | nil => simp [Row.find?] at h
  | cons p ps ih =>
    by_cases hp : p.1 = c
    · simp only [Row.find?, if_pos hp] at h
      obtain ⟨c1, v1⟩ := p
      simp only at hp
      have h2 : v1 = v := by simpa using h
      subst hp
      subst h2
      simp [Row.set]
    · simp only [Row.find?, if_neg hp] at h
      simp [Row.set, hp, ih h]

theorem keys_set_of_not_mem (r : Row) (c : String) (v : Value)
    (h : c ∉ r.map Prod.fst) :
    (Row.set r c v).map Prod.fst = r.map Prod.fst ++ [c] := by
  induction r with
  | nil => simp [Row.set]
  | cons p ps ih =>
    simp only [List.map_cons, List.mem_cons] at h
    push_neg at h
    simp [Row.set, Ne.symm h.1, ih h.2]

theorem isNumOrNan_cleanValue (v : Value) : isNumOrNan (cleanValue v) = true := by
  cases v with
  | str s =>
    simp only [cleanValue, toNumericCoerce]
    cases parseSigned (trimChars (stripCurrency s).data) <;> simp [isNumOrNan]
  | num q => simp [cleanValue, isNumOrNan]
  | nan => simp [cleanValue, isNumOrNan]

theorem cleanValue_of_isNumOrNan (v : Value) (h : isNumOrNan v = true) :
    cleanValue v = v := by
  cases v with
  | str s => simp [isNumOrNan] at h
  | num q => simp [cleanValue]
  | nan => simp [cleanValue]

theorem cleanValue_idem (v : Value) : cleanValue (cleanValue v) = cleanValue v :=
  cleanValue_of_isNumOrNan _ (isNumOrNan_cleanValue v)

theorem vltB_ne_nan (v : Value) (m : ℚ) (h : vltB v m = true) : v ≠ .nan := by
  cases v <;> simp_all [vltB]

theorem heapGet_append_lt (h : Heap) (d : DataFrame) (i : ℕ) (hi : i < h.length) :
    heapGet (h ++ [d]) i = heapGet h i := by
  simp [heapGet, List.getD, List.getElem?_append_left hi]

theorem heapGet_append_self (h : Heap) (d : DataFrame) :
    heapGet (h ++ [d]) h.length = d := by
  simp [heapGet, List.getD, List.getElem?_concat_length]

theorem heapGet_set_ne (h : Heap) (i j : ℕ) (d : DataFrame) (hij : i ≠ j) :
    heapGet (heapStore h i d) j = heapGet h j := by
  simp [heapGet, heapStore, List.getD, List.getElem?_set_ne hij]

theorem heapGet_set_self (h : Heap) (i : ℕ) (d : DataFrame) (hi : i < h.length) :
    heapGet (heapStore h i d) i = d := by
  simp [heapGet, heapStore, List.getD, List.getElem?_set_self hi]

theorem strLeB_total (a b : String) : strLeB a b = true ∨ strLeB b a = true := by
  by_cases hba : b.data < a.data
  · right
    simp [strLeB, lt_asymm hba]
  · left
    simp [strLeB, hba]

theorem strLeB_trans (a b c : String) (h1 : strLeB a b = true)
    (h2 : strLeB b c = true) : strLeB a c = true := by
  simp only [strLeB, Bool.not_eq_true', decide_eq_false_iff_not] at *
  intro hca
  exact h1 (lt_of_le_of_lt (not_lt.mp h2) hca)

theorem vle_total (a b : Value) : vle a b = true ∨ vle b a = true := by
  cases a <;> cases b <;> simp [vle, vrank]
  · exact strLeB_total _ _
  · exact le_total _ _

theorem vle_trans (a b c : Value) (h1 : vle a b = true) (h2 : vle b c = true) :
    vle a c = true := by
  cases a <;> cases b <;> cases c <;> simp_all [vle, vrank]
  · exact strLeB_trans _ _ _ h1 h2
  · exact le_trans h1 h2

theorem length_filter_eq_iff {α : Type} (p : α → Bool) (l : List α) :
    (l.filter p).length = l.length ↔ ∀ a ∈ l, p a = true := by
  constructor
  · intro h
    exact fun a ha => List.filter_eq_self.mp ((List.filter_sublist l).eq_of_length h) a ha
  · intro h
    rw [List.filter_eq_self.mpr h]

theorem preprocess_row_price (r : Row) (m : ℚ) :
    vltB (Row.get (Row.set (Row.set r "price" (cleanValue (Row.get r "price"))) "month_num"
      (mapMonth (Row.get (Row.set r "price" (cleanValue (Row.get r "price"))) "month")))
      "price") m = vltB (cleanValue (Row.get r "price")) m := by
  rw [Row.get_set_ne _ _ _ _ (by decide), Row.get_set]

/-- C1 (amended): the preprocessing pipeline never grows the table, and
its output row count equals the input row count exactly when every
row's price cleans to a numeric value strictly below the ceiling (a
price equal to the ceiling, or an unparseable price, is also removed). -/
theorem c1_row_count (df : DataFrame) (m : ℚ) :
    (preprocess_data df m).length ≤ df.length ∧
    ((preprocess_data df m).length = df.length ↔
      ∀ r ∈ df, vltB (cleanValue (Row.get r "price")) m = true) := by
  simp only [preprocess_data, filter_price_outliers, add_month_number, clean_price_column,
    List.map_map]
  constructor
  · exact (List.length_filter_le _ _).trans (by simp)
  · rw [show df.length = (df.map ((fun r => Row.set r "month_num"
        (mapMonth (Row.get r "month"))) ∘
        (fun r => Row.set r "price" (cleanValue (Row.get r "price"))))).length by simp]
    rw [length_filter_eq_iff]
    constructor
    · intro H r hr
      have := H _ (List.mem_map_of_mem _ hr)
      simpa [Function.comp, preprocess_row_price] using this
    · intro H a ha
      obtain ⟨r, hr, rfl⟩ := List.mem_map.mp ha
      simpa [Function.comp, preprocess_row_price] using H r hr

/-- C1, counterexample to the claim as stated: with the default ceiling
5000 and a single listing priced exactly 5000, no price exceeds the
ceiling yet the pipeline removes the row, so equality of row counts
fails. -/
theorem c1_counterexample :
    (∀ r ∈ dfCeil, priceExceeds (cleanValue (Row.get r "price")) 5000 = false) ∧
    (preprocess_data dfCeil 5000).length ≠ dfCeil.length := by decide

/-- C10: outlier filtering removes every row whose price is the missing
marker, both as a single step and inside the full pipeline, so prices
that failed to parse during cleaning never reach the output. -/
theorem c10_nan_price_dropped (df : DataFrame) (m : ℚ) (pcol : String) (r : Row) :
    (r ∈ df → Row.get r pcol = .nan → r ∉ filter_price_outliers df m pcol) ∧
    (r ∈ preprocess_data df m → Row.get r "price" ≠ .nan) := by
  constructor
  · intro _ hnan hmem
    have hp := List.of_mem_filter hmem
    rw [hnan] at hp
    simp [vltB] at hp
  · intro hmem
    simp only [preprocess_data, filter_price_outliers] at hmem
    have hp := List.of_mem_filter hmem
    exact vltB_ne_nan _ _ (by simpa using hp)

/-- C10 witness: the concrete missing-price row is dropped. -/
theorem c10_witness :
    [("price", Value.nan), ("id", Value.num 1)] ∉
      filter_price_outliers dfBadPrice 5000 "price" :=
  (c10_nan_price_dropped dfBadPrice 5000 "price" _).1 (by decide) rfl

/-- C5: price cleaning is idempotent.  Cleaning twice is cleaning once,
and on a table whose price column is already pure numeric (numbers or
missing markers) cleaning is the identity. -/
theorem c5_clean_idempotent :
    (∀ (df : DataFrame) (pcol : String),
      clean_price_column (clean_price_column df pcol) pcol =
        clean_price_column df pcol) ∧
    (∀ (df : DataFrame) (pcol : String),
      (∀ r ∈ df, ∃ v, Row.find? r pcol = some v ∧ isNumOrNan v = true) →
      clean_price_column df pcol = df) := by
  constructor
  · intro df pcol
    simp only [clean_price_column, List.map_map]
    apply List.map_congr_left
    intro r _
    simp only [Function.comp]
    rw [Row.get_set, cleanValue_idem]
    exact Row.set_of_find? _ _ _ (Row.find?_set _ _ _)
  · intro df pcol h
    have hid : ∀ r ∈ df,
        (fun r => Row.set r pcol (cleanValue (Row.get r pcol))) r = id r := by
      intro r hr
      obtain ⟨v, hf, hn⟩ := h r hr
      have hg : Row.get r pcol = v := by simp [Row.get, hf]
      simp only [id]
      rw [hg, cleanValue_of_isNumOrNan v hn]
      exact Row.set_of_find? _ _ _ hf
    rw [clean_price_column, List.map_congr_left hid, List.map_id]

/-- C5 witness: cleaning the already-numeric table leaves it unchanged. -/
theorem c5_witness : clean_price_column dfNumeric "price" = dfNumeric := by
  apply c5_clean_idempotent.2 dfNumeric "price"
  intro r hr
  simp only [dfNumeric, List.mem_cons, List.not_mem_nil, or_false] at hr
  rcases hr with h | h <;> subst h <;> exact ⟨_, rfl, rfl⟩

/-- C4: the loader produces its missing-input error exactly when no
file in the directory matches the year pattern; the `Except` result
carries no table in that case. -/
theorem c4_error_iff_no_match (dir : Directory) (year : ℕ) :
    (∃ e, load_monthly_listings dir year = .error e) ↔
      ∀ f ∈ dir, matchesPattern year f.1 = false := by
  have hperm := List.perm_insertionSort
    (fun a b : String × List Row => strLeB a.1 b.1 = true)
    (dir.filter (fun f => matchesPattern year f.1))
  have hiff : matchingFilesSorted dir year = [] ↔
      ∀ f ∈ dir, matchesPattern year f.1 = false := by
    constructor
    · intro hnil
      rw [matchingFilesSorted] at hnil
      rw [hnil] at hperm
      have hfe : dir.filter (fun f => matchesPattern year f.1) = [] :=
        (List.Perm.nil_eq hperm).symm
      intro f hf
      by_contra hm
      rw [Bool.not_eq_false] at hm
      have : f ∈ dir.filter (fun f => matchesPattern year f.1) :=
        List.mem_filter.mpr ⟨hf, hm⟩
      rw [hfe] at this
      exact List.not_mem_nil _ this
    · intro hall
      have hfe : dir.filter (fun f => matchesPattern year f.1) = [] :=
        List.filter_eq_nil_iff.mpr (fun a ha => by simp [hall a ha])
      rw [matchingFilesSorted, hfe]
      rfl
  cases hfl : matchingFilesSorted dir year with
  | nil =>
    simp only [load_monthly_listings, hfl]
    simpa using hiff.mp hfl
  | cons a l =>
    simp only [load_monthly_listings, hfl]
    constructor
    · rintro ⟨e, he⟩
      simp [List.isEmpty] at he
    · intro hall
      have := hiff.mpr hall
      rw [hfl] at this
      simp at this

theorem clean_op_frame (h : Heap) (ref : ℕ) (pcol : String) :
    (clean_price_column_op h ref pcol).2 = h.length ∧
    (clean_price_column_op h ref pcol).1.length = h.length + 1 ∧
    (∀ j, j < h.length →
      heapGet (clean_price_column_op h ref pcol).1 j = heapGet h j) ∧
    heapGet (clean_price_column_op h ref pcol).1 h.length =
      clean_price_column (heapGet h ref) pcol := by
  refine ⟨rfl, ?_, ?_, ?_⟩
  · simp [clean_price_column_op, heapAlloc, heapStore]
  · intro j hj
    simp only [clean_price_column_op, heapAlloc]
    rw [heapGet_set_ne _ _ _ _ (Nat.ne_of_gt hj), heapGet_append_lt _ _ _ hj]
  · simp only [clean_price_column_op, heapAlloc]
    rw [heapGet_set_self _ _ _ (by simp), heapGet_append_self]

theorem add_op_frame (h : Heap) (ref : ℕ) (mcol mncol : String) :
    (add_month_number_op h ref mcol mncol).2 = h.length ∧
    (add_month_number_op h ref mcol mncol).1.length = h.length + 1 ∧
    (∀ j, j < h.length →
      heapGet (add_month_number_op h ref mcol mncol).1 j = heapGet h j) ∧
    heapGet (add_month_number_op h ref mcol mncol).1 h.length =
      add_month_number (heapGet h ref) mcol mncol := by
  refine ⟨rfl, ?_, ?_, ?_⟩
  · simp [add_month_number_op, heapAlloc, heapStore]
  · intro j hj
    simp only [add_month_number_op, heapAlloc]
    rw [heapGet_set_ne _ _ _ _ (Nat.ne_of_gt hj), heapGet_append_lt _ _ _ hj]
  · simp only [add_month_number_op, heapAlloc]
    rw [heapGet_set_self _ _ _ (by simp), heapGet_append_self]

theorem filter_op_frame (h : Heap) (ref : ℕ) (m : ℚ) (pcol : String) :
    (filter_price_outliers_op h ref m pcol).2 = h.length ∧
    (filter_price_outliers_op h ref m pcol).1.length = h.length + 1 ∧
    (∀ j, j < h.length →
      heapGet (filter_price_outliers_op h ref m pcol).1 j = heapGet h j) ∧
    heapGet (filter_price_outliers_op h ref m pcol).1 h.length =
      filter_price_outliers (heapGet h ref) m pcol := by
  refine ⟨rfl, by simp [filter_price_outliers_op, heapAlloc], ?_, ?_⟩
  · intro j hj
    exact heapGet_append_lt _ _ _ hj
  · exact heapGet_append_self _ _

theorem preprocess_op_frame (h : Heap) (ref : ℕ) (m : ℚ) :
    (preprocess_data_op h ref m).2 = h.length + 2 ∧
    (∀ j, j < h.length →
      heapGet (preprocess_data_op h ref m).1 j = heapGet h j) ∧
    heapGet (preprocess_data_op h ref m).1 (preprocess_data_op h ref m).2 =
      preprocess_data (heapGet h ref) m := by
  obtain ⟨d1, d2, d3, d4⟩ := clean_op_frame h ref "price"
  obtain ⟨e1, e2, e3, e4⟩ := add_op_frame (clean_price_column_op h ref "price").1
    (clean_price_column_op h ref "price").2 "month" "month_num"
  obtain ⟨g1, g2, g3, g4⟩ := filter_op_frame
    (add_month_number_op (clean_price_column_op h ref "price").1
      (clean_price_column_op h ref "price").2 "month" "month_num").1
    (add_month_number_op (clean_price_column_op h ref "price").1
      (clean_price_column_op h ref "price").2 "month" "month_num").2 m "price"
  have hpre : preprocess_data_op h ref m = filter_price_outliers_op
      (add_month_number_op (clean_price_column_op h ref "price").1
        (clean_price_column_op h ref "price").2 "month" "month_num").1
      (add_month_number_op (clean_price_column_op h ref "price").1
        (clean_price_column_op h ref "price").2 "month" "month_num").2 m "price" := rfl
  refine ⟨?_, ?_, ?_⟩
  · rw [hpre, g1, e2, d2]
  · intro j hj
    rw [hpre, g3 j (by omega), e3 j (by omega)]
    exact d3 j hj
  · rw [hpre, g1, g4, e1, e4, d1, d4]
    rfl

/-- C6: each preprocessing step, and the whole pipeline, returns a
fresh table and leaves the caller's table untouched: in the heap model
the step's result lives at a new reference, the table at the old
reference is unchanged, and the new table is the pure transformation of
the old one. -/
theorem c6_no_mutation (h : Heap) (ref : ℕ) (pcol mcol mncol : String) (m : ℚ)
    (href : ref < h.length) :
    (heapGet (clean_price_column_op h ref pcol).1 ref = heapGet h ref ∧
      (clean_price_column_op h ref pcol).2 ≠ ref ∧
      heapGet (clean_price_column_op h ref pcol).1 (clean_price_column_op h ref pcol).2 =
        clean_price_column (heapGet h ref) pcol) ∧
    (heapGet (add_month_number_op h ref mcol mncol).1 ref = heapGet h ref ∧
      (add_month_number_op h ref mcol mncol).2 ≠ ref ∧
      heapGet (add_month_number_op h ref mcol mncol).1
          (add_month_number_op h ref mcol mncol).2 =
        add_month_number (heapGet h ref) mcol mncol) ∧
    (heapGet (filter_price_outliers_op h ref m pcol).1 ref = heapGet h ref ∧
      (filter_price_outliers_op h ref m pcol).2 ≠ ref ∧
      heapGet (filter_price_outliers_op h ref m pcol).1
          (filter_price_outliers_op h ref m pcol).2 =
        filter_price_outliers (heapGet h ref) m pcol) ∧
    (heapGet (preprocess_data_op h ref m).1 ref = heapGet h ref ∧
      (preprocess_data_op h ref m).2 ≠ ref ∧
      heapGet (preprocess_data_op h ref m).1 (preprocess_data_op h ref m).2 =
        preprocess_data (heapGet h ref) m) := by
  obtain ⟨c1, c2, c3, c4⟩ := clean_op_frame h ref pcol
  obtain ⟨a1, a2, a3, a4⟩ := add_op_frame h ref mcol mncol
  obtain ⟨f1, f2, f3, f4⟩ := filter_op_frame h ref m pcol
  obtain ⟨p1, p2, p3⟩ := preprocess_op_frame h ref m
  exact ⟨⟨c3 ref href, by rw [c1]; omega, by rw [c1]; exact c4⟩,
    ⟨a3 ref href, by rw [a1]; omega, by rw [a1]; exact a4⟩,
    ⟨f3 ref href, by rw [f1]; omega, by rw [f1]; exact f4⟩,
    ⟨p2 ref href, by rw [p1]; omega, p3⟩⟩

/-- C6 witness: on a concrete one-table heap the pipeline leaves the
original table in place and yields the pure preprocessing result. -/
theorem c6_witness :
    heapGet (preprocess_data_op heapOne 0 5000).1 0 = heapGet heapOne 0 ∧
    heapGet (preprocess_data_op heapOne 0 5000).1 (preprocess_data_op heapOne 0 5000).2 =
      preprocess_data (heapGet heapOne 0) 5000 := by
  have h := c6_no_mutation heapOne 0 "price" "month" "month_num" 5000 (by decide)
  exact ⟨h.2.2.2.1, h.2.2.2.2.2⟩

/-- C3, counterexample to the claim as stated: when a source file
already carries a `month` column, the loader overwrites it in place,
so the loaded table has exactly the source schema and no added column,
while the row-count invariant still holds. -/
theorem c3_counterexample :
    load_monthly_listings dirMonthCol 2025 =
      .ok [[("month", Value.str "May"), ("price", Value.num 1)]] ∧
    ([("month", Value.str "May"), ("price", Value.num 1)] : Row).map Prod.fst =
      ([("month", Value.str "stale"), ("price", Value.num 1)] : Row).map Prod.fst := by
  decide

/-- C3 (amended): with at least one matching file, the loader returns a
table whose row count is the sum of the matching files' row counts,
formed by concatenating the files' rows in sorted-file-name order with
row order preserved inside each file; each row acquires exactly one
added month-tag column beyond its source schema provided its source row
did not already carry the month-tag column (which the loader would
overwrite instead). -/
theorem c3_load (dir : Directory) (year : ℕ)
    (hne : matchingFilesSorted dir year ≠ []) :
    ∃ df, load_monthly_listings dir year = .ok df ∧
      df.length = ((matchingFilesSorted dir year).map (fun f => f.2.length)).sum ∧
      df = (matchingFilesSorted dir year).flatMap tagRows ∧
      List.Sorted (fun x y => strLeB x y = true)
        ((matchingFilesSorted dir year).map Prod.fst) ∧
      (∀ f ∈ matchingFilesSorted dir year, ∀ r ∈ f.2,
        "month" ∉ r.map Prod.fst →
          (Row.set r "month" (.str (monthToken f.1))).map Prod.fst =
            r.map Prod.fst ++ ["month"]) := by
  have hie : (matchingFilesSorted dir year).isEmpty = false := by
    cases hfl : matchingFilesSorted dir year with
    | nil => exact absurd hfl hne
    | cons a t => rfl
  refine ⟨((matchingFilesSorted dir year).map tagRows).flatten, ?_, ?_, ?_, ?_, ?_⟩
  · simp [load_monthly_listings, hie]
  · rw [List.length_flatten, List.map_map]
    congr 1
    apply List.map_congr_left
    intro f _
    simp [Function.comp, tagRows]
  · simp [List.flatMap]
  · haveI : IsTotal (String × List Row) (fun a b => strLeB a.1 b.1 = true) :=
      ⟨fun a b => strLeB_total a.1 b.1⟩
    haveI : IsTrans (String × List Row) (fun a b => strLeB a.1 b.1 = true) :=
      ⟨fun a b c h1 h2 => strLeB_trans _ _ _ h1 h2⟩
    have hs := List.sorted_insertionSort
      (fun a b : String × List Row => strLeB a.1 b.1 = true)
      (dir.filter (fun f => matchesPattern year f.1))
    exact List.Pairwise.map _ (fun a b hab => hab) hs
  · intro f _ r _ hnotin
    exact keys_set_of_not_mem r "month" _ hnotin

/-- C3 witness: on a directory with two matching files the loader
succeeds with the summed row count. -/
theorem c3_witness :
    ∃ df, load_monthly_listings dirTwoFiles 2025 = .ok df ∧
      df.length = ((matchingFilesSorted dirTwoFiles 2025).map (fun f => f.2.length)).sum := by
  obtain ⟨df, h1, h2, -, -, -⟩ := c3_load dirTwoFiles 2025 (by decide)
  exact ⟨df, h1, h2⟩

/-- C8: when the target rows have mean price `a` and the remaining rows
have mean price `b` with `b` nonzero, the borough comparison returns
exactly `a`, `b` and the ratio `a / b`. -/
theorem c8_borough_ratio (df : DataFrame) (bcol target pcol : String) (a b : ℚ)
    (ht : meanQ (targetPricesOf df bcol target pcol) = .num a)
    (ho : meanQ (otherPricesOf df bcol target pcol) = .num b)
    (hb : b ≠ 0) :
    compare_boroughs df bcol target pcol = ⟨.num a, .num b, .num (a / b)⟩ := by
  simp [compare_boroughs, ht, ho, vdiv, hb]

/-- C8 witness: a table with target mean 300 and other mean 100 yields
ratio exactly 3. -/
theorem c8_witness :
    compare_boroughs dfBoroughs "neighbourhood_group_cleansed" "Manhattan" "price" =
      ⟨.num 300, .num 100, .num 3⟩ := by
  have h := c8_borough_ratio dfBoroughs "neighbourhood_group_cleansed" "Manhattan"
    "price" 300 100 (by decide) (by decide) (by decide)
  rw [h]
  decide

/-- C9: when the per-group mean prices have a numeric minimum `m ≠ 0`
and maximum `M`, the seasonal-range computation returns exactly `m`,
`M`, their difference, and the difference as a percentage of `m`; on
monthly means 100, 150 and 90 this gives min 90, max 150, range 60 and
percentage range 200/3 (about 66.67). -/
theorem c9_seasonal_range :
    (∀ (df : DataFrame) (gcol pcol : String) (m M : ℚ),
      seriesMin (groupMeansList df gcol pcol) = .num m →
      seriesMax (groupMeansList df gcol pcol) = .num M →
      m ≠ 0 →
      calculate_seasonal_range df gcol pcol =
        ⟨.num m, .num M, .num (M - m), .num ((M - m) / m * 100)⟩) ∧
    calculate_seasonal_range dfSeasons "month_num" "price" =
      ⟨.num 90, .num 150, .num 60, .num (200 / 3)⟩ := by
  constructor
  · intro df gcol pcol m M hm hM hm0
    simp [calculate_seasonal_range, hm, hM, vsub, vdiv, hm0, vmul100]
  · decide

/-- C9 witness: the general statement applied to the concrete monthly
means 100, 150 and 90. -/
theorem c9_witness :
    calculate_seasonal_range dfSeasons "month_num" "price" =
      ⟨.num 90, .num 150, .num (150 - 90), .num ((150 - 90) / 90 * 100)⟩ :=
  c9_seasonal_range.1 dfSeasons "month_num" "price" 90 150 (by decide) (by decide)
    (by decide)

/-- C2 (code bug): the neighborhood bar-chart function never completes.
Its source calls `Series.sort_values(descending=True)`, but the pandas
signature has `ascending`, not `descending`, so every call raises
`TypeError` before anything is ranked or drawn, for every input table
and every `top_n`. -/
theorem c2_plot_always_raises (df : DataFrame) (bcol ncol pcol : String)
    (top_n : Option ℕ) :
    plot_manhattan_neighborhood_prices df bcol ncol pcol top_n =
      .error "TypeError: sort_values got an unexpected keyword argument" := by
  have hk : ∀ s : List (Value × Value), seriesSortValuesCall s ["descending"] =
      .error "TypeError: sort_values got an unexpected keyword argument" :=
    fun s => rfl
  simp [plot_manhattan_neighborhood_prices, hk, Bind.bind, Except.bind]

theorem mem_sortedKeys (df : DataFrame) (c : String) (k : Value)
    (hk : k ∈ sortedKeys df c) : (∃ r ∈ df, Row.get r c = k) ∧ k ≠ .nan := by
  rw [sortedKeys] at hk
  have h1 : k ∈ (keyVals df c).dedup :=
    (List.perm_insertionSort vleP _).mem_iff.mp hk
  have h2 : k ∈ keyVals df c := List.mem_dedup.mp h1
  rw [keyVals] at h2
  obtain ⟨r, hr, hmatch⟩ := List.mem_filterMap.mp h2
  have hres : Row.get r c = k ∧ k ≠ .nan := by
    cases hg : Row.get r c with
    | nan => rw [hg] at hmatch; simp at hmatch
    | str s =>
      rw [hg] at hmatch
      simp at hmatch
      subst hmatch
      exact ⟨rfl, by simp⟩
    | num q =>
      rw [hg] at hmatch
      simp at hmatch
      subst hmatch
      exact ⟨rfl, by simp⟩
  exact ⟨⟨r, hr, hres.1⟩, hres.2⟩

theorem monthNameExc_int (n : ℤ) (h1 : 1 ≤ n) (h2 : n ≤ 12) :
    monthNameExc false (.num (n : ℚ)) =
      .ok (pandasMonthNames.getD (n.toNat - 1) "") := by
  interval_cases n <;> decide

theorem colIsFloat_of_int_keys (df : DataFrame) (c : String)
    (h : ∀ r ∈ df, ∃ n : ℤ, Row.get r c = .num (n : ℚ)) :
    colIsFloat df c = false := by
  rw [colIsFloat, List.any_eq_false]
  intro r hr
  obtain ⟨n, hn⟩ := h r hr
  rw [hn]
  simp [Rat.den_intCast]

theorem attachMonths_ok (isF : Bool) : ∀ l : List StatRow,
    (∀ s ∈ l, ∃ nm, monthNameExc isF s.key = .ok nm) →
    attachMonths isF l = .ok (l.map (fun s =>
      { s with month := (monthNameExc isF s.key).toOption })) := by
  intro l
  induction l with
  | nil => intro _; rfl
  | cons s rest ih =>
    intro h
    obtain ⟨nm, hnm⟩ := h s (by simp)
    have hrest := ih (fun t ht => h t (by simp [ht]))
    simp [attachMonths, hnm, hrest, Except.toOption]

/-- C7 (amended): grouped statistics returns the per-group count, mean,
median and (squared) standard deviation of price with groups sorted by
key ascending, and attaches the month name per group when grouping by
the numeric month, provided the month column carries no missing value
and its keys are integers 1-12 (with a missing month the column is
float-typed and the name-formatting step raises instead); in
particular, on group A with prices 10, 20, 30 and group B with price
100 it returns count 3, mean 20, median 20 for A and count 1, mean 100,
median 100 for B. -/
theorem c7_grouped_stats :
    (∀ (df : DataFrame) (gcol pcol : String),
      (gcol = "month_num" →
        ∀ r ∈ df, ∃ n : ℤ, Row.get r gcol = .num (n : ℚ) ∧ 1 ≤ n ∧ n ≤ 12) →
      ∃ res, calculate_rental_stats df gcol pcol = .ok res ∧
        res.map StatRow.key = sortedKeys df gcol ∧
        List.Sorted vleP (res.map StatRow.key) ∧
        (∀ s ∈ res,
          s.count = (groupNums df gcol pcol s.key).length ∧
          s.mean = meanQ (groupNums df gcol pcol s.key) ∧
          s.median = medianQ (groupNums df gcol pcol s.key) ∧
          s.stdSq = varQ (groupNums df gcol pcol s.key)) ∧
        (gcol ≠ "month_num" → ∀ s ∈ res, s.month = none) ∧
        (gcol = "month_num" → ∀ s ∈ res, ∃ n : ℤ, s.key = .num (n : ℚ) ∧
          s.month = some (pandasMonthNames.getD (n.toNat - 1) ""))) ∧
    calculate_rental_stats dfGroups "grp" "price" =
      .ok [⟨.str "A", 3, .num 20, .num 20, .num 100, none⟩,
           ⟨.str "B", 1, .num 100, .num 100, .nan, none⟩] := by
  constructor
  · intro df gcol pcol hmonth
    haveI : IsTotal Value vleP := ⟨vle_total⟩
    haveI : IsTrans Value vleP := ⟨fun a b c => vle_trans a b c⟩
    have hsorted : List.Sorted vleP (sortedKeys df gcol) :=
      List.sorted_insertionSort vleP _
    by_cases hg : gcol = "month_num"
    · subst hg
      have hall := hmonth rfl
      have hisf : colIsFloat df "month_num" = false :=
        colIsFloat_of_int_keys df "month_num"
          (fun r hr => ⟨(hall r hr).choose, (hall r hr).choose_spec.1⟩)
      have hkeyn : ∀ k ∈ sortedKeys df "month_num",
          ∃ n : ℤ, k = .num (n : ℚ) ∧ 1 ≤ n ∧ n ≤ 12 := by
        intro k hk
        obtain ⟨⟨r, hr, hget⟩, -⟩ := mem_sortedKeys df "month_num" k hk
        obtain ⟨n, hn, hn1, hn2⟩ := hall r hr
        exact ⟨n, hget.symm.trans hn, hn1, hn2⟩
      have hkeysok : ∀ s ∈ (sortedKeys df "month_num").map (statOf df "month_num" pcol),
          ∃ nm, monthNameExc false s.key = .ok nm := by
        intro s hs
        obtain ⟨k, hk, rfl⟩ := List.mem_map.mp hs
        obtain ⟨n, hkn, hn1, hn2⟩ := hkeyn k hk
        refine ⟨pandasMonthNames.getD (n.toNat - 1) "", ?_⟩
        show monthNameExc false k = _
        rw [hkn]
        exact monthNameExc_int n hn1 hn2
      have hatt := attachMonths_ok false _ hkeysok
      have hcalc : calculate_rental_stats df "month_num" pcol =
          .ok (((sortedKeys df "month_num").map (statOf df "month_num" pcol)).map
            (fun s => { s with month := (monthNameExc false s.key).toOption })) := by
        simp only [calculate_rental_stats, if_pos rfl, hisf]
        exact hatt
      have hkeys : ((((sortedKeys df "month_num").map (statOf df "month_num" pcol)).map
          (fun s => { s with month := (monthNameExc false s.key).toOption })).map
          StatRow.key) = sortedKeys df "month_num" := by
        rw [List.map_map, List.map_map]
        exact (List.map_congr_left (fun _ _ => rfl)).trans (List.map_id _)
      refine ⟨_, hcalc, hkeys, by rw [hkeys]; exact hsorted, ?_, ?_, ?_⟩
      · intro s hs
        obtain ⟨t, ht, rfl⟩ := List.mem_map.mp hs
        obtain ⟨k, hk, rfl⟩ := List.mem_map.mp ht
        exact ⟨rfl, rfl, rfl, rfl⟩
      · intro h
        exact absurd rfl h
      · intro _ s hs
        obtain ⟨t, ht, rfl⟩ := List.mem_map.mp hs
        obtain ⟨k, hk, rfl⟩ := List.mem_map.mp ht
        obtain ⟨n, hkn, hn1, hn2⟩ := hkeyn k hk
        refine ⟨n, hkn, ?_⟩
        show (monthNameExc false (statOf df "month_num" pcol k).key).toOption = _
        have : (statOf df "month_num" pcol k).key = k := rfl
        rw [this, hkn, monthNameExc_int n hn1 hn2]
        rfl
    · have hcalc : calculate_rental_stats df gcol pcol =
          .ok ((sortedKeys df gcol).map (statOf df gcol pcol)) := by
        simp [calculate_rental_stats, hg]
      have hkeys : (((sortedKeys df gcol).map (statOf df gcol pcol)).map StatRow.key) =
          sortedKeys df gcol := by
        rw [List.map_map]
        exact (List.map_congr_left (fun _ _ => rfl)).trans (List.map_id _)
      refine ⟨_, hcalc, hkeys, by rw [hkeys]; exact hsorted, ?_, ?_, ?_⟩
      · intro s hs
        obtain ⟨k, hk, rfl⟩ := List.mem_map.mp hs
        exact ⟨rfl, rfl, rfl, rfl⟩
      · intro _ s hs
        obtain ⟨k, hk, rfl⟩ := List.mem_map.mp hs
        rfl
      · intro h
        exact absurd h hg
  · decide

/-- C7 witness: the general statement applied to the two-group table,
whose grouping column is not the numeric month. -/
theorem c7_witness :
    ∃ res, calculate_rental_stats dfGroups "grp" "price" = .ok res ∧
      res.map StatRow.key = sortedKeys dfGroups "grp" ∧
      List.Sorted vleP (res.map StatRow.key) := by
  obtain ⟨res, h1, h2, h3, -⟩ := c7_grouped_stats.1 dfGroups "grp" "price"
    (fun h => absurd h (by decide))
  exact ⟨res, h1, h2, h3⟩

/-- C7, counterexample to the claim as stated: a table whose month
column holds one valid month and one missing month is float-typed, so
the month keys render as `1.0`, the `%m` parse fails, and grouped
statistics raises instead of returning the statistics table. -/
theorem c7_counterexample :
    calculate_rental_stats dfFloatMonth "month_num" "price" =
      .error "ValueError: time data 1.0 does not match format" := by decide

/-- C1 witness: the amended row-count statement at a concrete table,
where the sole price is below the ceiling so equality holds. -/
theorem c1_witness :
    (preprocess_data dfManhattan 5000).length = dfManhattan.length :=
  (c1_row_count dfManhattan 5000).2.mpr (by decide)

/-- C4 witness: a directory with no matching file produces the
missing-input error. -/
theorem c4_witness : ∃ e, load_monthly_listings [("readme.txt", [])] 2025 = .error e :=
  (c4_error_iff_no_match [("readme.txt", [])] 2025).mpr (by decide)
